import Mathlib

/-!
Verification development for the juicebox-ai backend (Python).

The embedding translates the Python sources into Lean definitions:

* `backend/app/core/utilities.py` — `CandidateExporter.to_csv`,
  `CandidateFilter.deduplicate`, `BatchSearchManager` (candidates there are
  plain Python dicts, modelled by association lists over a small Python value
  universe);
* `backend/app/models/schemas.py` — the pydantic models (`SearchStatus`,
  `Candidate`, …) as Lean structures;
* `backend/app/services/search_service.py` — the in-memory search map and the
  operations `create_search`, `_run_search`, `_convert_results_to_candidates`,
  `get_search_status`;
* `backend/app/api/routes/search.py` and `candidates.py` — the route handlers
  as functions returning an HTTP result value;
* `backend/app/core/finder.py` — `LinkedInCandidateFinder`; its calls into the
  third-party `exa_py` client are abstracted as function parameters.

Python floats are modelled as exact rationals (`ℚ`); wall-clock timestamps
(`datetime.now()`) and log printing are outside the embedding.  Fallible code
returns `Except String`; an `.error` value models a raised exception carrying
its message.
-/

/-- A primitive (non-container) Python value: `None`, `bool`, `int`, `float`
(modelled as `ℚ`) or `str`. -/
inductive Prim where
  | pnone
  | pbool (b : Bool)
  | pint (n : Int)
  | pnum (q : ℚ)
  | pstr (s : String)
deriving DecidableEq, Repr

/-- A Python value as it occurs inside a candidate dictionary in
`utilities.py`: a primitive, a dictionary of primitives (for example the
`properties` field) or a list of primitives. -/
inductive UVal where
  | prim (p : Prim)
  | dict (d : List (String × Prim))
  | list (l : List Prim)
deriving DecidableEq, Repr

/-- A candidate as handled by `utilities.py`: a plain Python dictionary,
modelled as an association list (first binding wins, mirroring the uniqueness
of dict keys; the list order is the dict's insertion order). -/
abbrev UCand := List (String × UVal)

/-- A dictionary of primitive values (for example a candidate's
`properties`). -/
abbrev PyDict := List (String × Prim)

/-- Python truthiness of a primitive value. -/
def truthyPrim : Prim → Bool
  | .pnone => false
  | .pbool b => b
  | .pint n => n != 0
  | .pnum q => q != 0
  | .pstr s => s != ""

/-- Python truthiness of a `UVal` (containers are truthy iff non-empty). -/
def truthyU : UVal → Bool
  | .prim p => truthyPrim p
  | .dict d => !d.isEmpty
  | .list l => !l.isEmpty

/-- Embedding of `candidate.get(k)` on a candidate dictionary: the value of the first
binding of `k`, if any. -/
def pyGet (c : UCand) (k : String) : Option UVal :=
  (c.find? (fun p => p.1 == k)).map (·.2)

/-- Embedding of `d.get(k)` on a dictionary of primitives. -/
def pyDictGet (d : PyDict) (k : String) : Option Prim :=
  (d.find? (fun p => p.1 == k)).map (·.2)

/-- If `pat` is a leading pattern of `l`, return the remainder of `l` after
it. -/
def dropPatChars : List Char → List Char → Option (List Char)
  | [], l => some l
  | _ :: _, [] => none
  | p :: ps, c :: cs => if p = c then dropPatChars ps cs else none

/-- Replace every non-overlapping occurrence of `pat` (scanning left to
right) by `rep`, the semantics of Python's `str.replace`.  The fuel argument
is instantiated with the length of the scanned text, which suffices because
each step consumes at least one character when `pat` is non-empty. -/
def replaceChars (pat rep : List Char) : ℕ → List Char → List Char
  | _, [] => []
  | 0, l => l
  | fuel + 1, c :: cs =>
    match dropPatChars pat (c :: cs) with
    | some rest => rep ++ replaceChars pat rep fuel rest
    | none => c :: replaceChars pat rep fuel cs

/-- Python's `s.replace(pat, rep)` for a non-empty `pat` (the only way the
sources call it). -/
def pyReplace (s pat rep : String) : String :=
  if pat.isEmpty then s
  else ⟨replaceChars pat.data rep.data s.data.length s.data⟩

/-- Python's `s.startswith(p)`. -/
def strStartsWith (s p : String) : Bool :=
  p.data.isPrefixOf s.data

/-- The empty-string CSV cell, the default written for a missing field or
property (`candidate.get(field, '')`). -/
def emptyCell : UVal := .prim (.pstr "")

/-- One cell of a CSV row, `utilities.py` lines 50–55.  For a column starting
with `property_` the looked-up property name is the column name with every
occurrence of `property_` removed (`field.replace('property_', '')`); the
value is then `candidate.get('properties', {}).get(prop_name, '')`.  A
truthy non-dict `properties` value would raise `AttributeError` at `.get`. -/
def csvCell (c : UCand) (field : String) : Except String UVal :=
  if strStartsWith field "property_" then
    let prop_name := pyReplace field "property_" ""
    match pyGet c "properties" with
    | none => .ok (((pyDictGet [] prop_name).map UVal.prim).getD emptyCell)
    | some (.dict d) => .ok (((pyDictGet d prop_name).map UVal.prim).getD emptyCell)
    | some v => if truthyU v then .error "AttributeError" else .ok emptyCell
  else
    .ok ((pyGet c field).getD emptyCell)

/-- Run an exception-raising step over a list in order, stopping at the
first raised exception — the semantics of the Python `for` loops here. -/
def exMapM {α β : Type} (g : α → Except String β) : List α → Except String (List β)
  | [] => .ok []
  | a :: t =>
    match g a with
    | .error e => .error e
    | .ok b =>
      match exMapM g t with
      | .error e => .error e
      | .ok bs => .ok (b :: bs)

/-- One CSV data row: the cells of `fields`, in order. -/
def csvRow (c : UCand) (fields : List String) : Except String (List UVal) :=
  exMapM (csvCell c) fields

/-- The default field list of `CandidateExporter.to_csv` (`utilities.py`
lines 37–42): `id, url, title, status`, extended by `property_<key>` for each
key of the first candidate's `properties` dictionary when that value is
truthy.  A truthy non-dict value would raise `AttributeError` at
`.keys()`. -/
def defaultFields (c0 : UCand) : Except String (List String) :=
  let base := ["id", "url", "title", "status"]
  match pyGet c0 "properties" with
  | some (.dict d) =>
    if d.isEmpty then .ok base
    else .ok (base ++ d.map (fun p => "property_" ++ p.1))
  | some v => if truthyU v then .error "AttributeError" else .ok base
  | none => .ok base

/-- Embedding of `CandidateExporter.to_csv`, `utilities.py` lines 22–58, modelled as the
sequence of rows written to the file: `.ok none` when no file is written
(empty candidate list), `.ok (some (header :: rows))` when the file is
written, `.error` when an exception is raised.  The csv writer's
stringification of cell values is left at the `UVal` level. -/
def to_csv : List UCand → Option (List String) → Except String (Option (List (List UVal)))
  | [], _ => .ok none
  | c0 :: rest, fieldsArg =>
    match (match fieldsArg with | some fs => .ok fs | none => defaultFields c0 :
        Except String (List String)) with
    | .error e => .error e
    | .ok fields =>
      match exMapM (fun c => csvRow c fields) (c0 :: rest) with
      | .error e => .error e
      | .ok rows => .ok (some ((fields.map (fun f => UVal.prim (.pstr f))) :: rows))

/-- The numeric reading of a primitive under Python comparison: `bool` is a
subclass of `int` (`True == 1`), and ints compare equal to floats of the
same value; `None` and strings are not numbers. -/
def primAsNum : Prim → Option ℚ
  | .pbool b => some (if b then 1 else 0)
  | .pint n => some (n : ℚ)
  | .pnum q => some q
  | .pnone => none
  | .pstr _ => none

/-- Python `==` on the hashable primitive values: numeric values compare by
value across `bool`/`int`/`float`; `None` and strings equal only
themselves. -/
def pyPrimEq (a b : Prim) : Bool :=
  match primAsNum a, primAsNum b with
  | some x, some y => x == y
  | _, _ =>
    match a, b with
    | .pnone, .pnone => true
    | .pstr s, .pstr t => s == t
    | _, _ => false

/-- The loop of `CandidateFilter.deduplicate` (`utilities.py` lines 277–285)
with the running `seen` set made explicit.  `if value and value not in
seen:` first tests truthiness, so a falsy value is skipped without touching
the set; probing the set with a truthy dict or list value hashes it and
raises `TypeError: unhashable type`; set membership of a hashable value is
Python `==` (`seen` therefore only ever holds truthy primitives). -/
def dedupGo (key : String) (seen : List Prim) : List UCand → Except String (List UCand)
  | [] => .ok []
  | c :: cs =>
    let value := (pyGet c key).getD (.prim .pnone)
    if truthyU value then
      match value with
      | .prim p =>
        if seen.any (fun q => pyPrimEq q p) then
          dedupGo key seen cs
        else
          match dedupGo key (p :: seen) cs with
          | .error e => .error e
          | .ok rest => .ok (c :: rest)
      | _ => .error "TypeError: unhashable type"
    else
      dedupGo key seen cs

/-- Embedding of `CandidateFilter.deduplicate`, `utilities.py` lines
266–287: the returned unique list, or the exception the loop raises. -/
def deduplicate (candidates : List UCand) (key : String) : Except String (List UCand) :=
  dedupGo key [] candidates

/-! ## finder.py data types and the batch manager of utilities.py -/

/-- Embedding of `EntityType` from `finder.py` lines 24–29. -/
inductive EntityType where
  | person
  | company
  | research_paper
  | article
deriving DecidableEq, Repr

/-- Embedding of `SearchCriteria` from `finder.py` lines 32–39. -/
structure SearchCriteria where
  query : String
  count : Int := 10
  entity : EntityType := .person
  criteria : Option (List String) := none
  exclude_criteria : Option (List String) := none
deriving DecidableEq, Repr

/-- Embedding of `EnrichmentConfig` from `finder.py` lines 42–47. -/
structure EnrichmentConfig where
  description : String
  format : String := "text"
  schema : Option PyDict := none
deriving DecidableEq, Repr

/-- The dictionary returned by
`LinkedInCandidateFinder.create_candidate_search` (`finder.py` lines
163–168). -/
structure WebsetInfo where
  id : String
  status : String
  external_id : Option String
  search_query : String
deriving DecidableEq, Repr

/-- The webset object returned by the `exa_py` client's `wait_until_idle`
(only the fields the sources read). -/
structure WebsetObj where
  id : String
  status : String
deriving DecidableEq, Repr

/-- The three finder operations used by `BatchSearchManager`, abstracted over
the third-party `exa_py` client: `create_candidate_search` (returning the
info dictionary of `finder.py` lines 163–168), `wait_for_results` (returning
the completed webset object) and `get_candidates` (returning the webset's
items mapped to candidate dictionaries).  The batch claims quantify over
executions in which these calls return normally. -/
structure FinderOps where
  createInfo : SearchCriteria → List EnrichmentConfig → Option String → WebsetInfo
  waitDone : String → WebsetObj
  getCands : String → List UCand

/-- Embedding of `LinkedInCandidateFinder.search_and_wait`, `finder.py` lines 260–291:
create the webset, wait for completion, then fetch the items. -/
def searchAndWait (f : FinderOps) (c : SearchCriteria) (e : List EnrichmentConfig)
    (externalId : Option String) : List UCand :=
  let info := f.createInfo c e externalId
  let _ := f.waitDone info.id
  f.getCands info.id

/-- One entry of `BatchSearchManager.searches` (`utilities.py` lines
132–139).  The `status` field is the plain string the batch code uses. -/
structure BSearch where
  name : String
  criteria : SearchCriteria
  enrichments : List EnrichmentConfig
  webset_id : Option String
  status : String
  results : Option (List UCand)
deriving DecidableEq, Repr

/-- Embedding of `BatchSearchManager.add_search` (`utilities.py` lines 118–140) applied to
each element of `inputs` in order, starting from an empty batch. -/
def addAll (inputs : List (String × SearchCriteria × Option (List EnrichmentConfig))) :
    List BSearch :=
  inputs.map (fun t =>
    { name := t.1
      criteria := t.2.1
      enrichments := (t.2.2).getD []
      webset_id := none
      status := "pending"
      results := none })

/-- Observable calls made on the finder while a batch runs, used to state in
which order websets are created, waited on and fetched. -/
inductive BEvent where
  | created (name : String)
  | waited (name : String)
  | fetched (name : String)
deriving DecidableEq, Repr

/-- Phase one of `BatchSearchManager.run_all(parallel=True)` (`utilities.py`
lines 152–161): create a webset for every search, record its id and mark the
search running. -/
def startAll (f : FinderOps) (searches : List BSearch) : List BSearch :=
  searches.map (fun s =>
    { s with
      webset_id := some (f.createInfo s.criteria s.enrichments (some s.name)).id
      status := "running" })

/-- Phase two of `BatchSearchManager.run_all(parallel=True)` (`utilities.py`
lines 163–169): for each search in order, wait on its webset, fetch its
candidates and mark it completed.  Phase one always sets `webset_id`, so the
`getD ""` default is never exercised by `run_all`. -/
def waitFetchAll (f : FinderOps) (searches : List BSearch) : List BSearch :=
  searches.map (fun s =>
    let wid := s.webset_id.getD ""
    let _ := f.waitDone wid
    { s with results := some (f.getCands wid), status := "completed" })

/-- Embedding of `BatchSearchManager.run_all` (`utilities.py` lines 142–180), returning
the updated search list together with the trace of finder calls. -/
def runAll (f : FinderOps) (parallel : Bool) (searches : List BSearch) :
    List BSearch × List BEvent :=
  if parallel then
    (waitFetchAll f (startAll f searches),
     searches.map (fun s => BEvent.created s.name)
       ++ searches.flatMap (fun s => [BEvent.waited s.name, BEvent.fetched s.name]))
  else
    (searches.map (fun s =>
       { s with
         results := some (searchAndWait f s.criteria s.enrichments (some s.name))
         status := "completed" }),
     searches.flatMap (fun s =>
       [BEvent.created s.name, BEvent.waited s.name, BEvent.fetched s.name]))

/-- Embedding of `BatchSearchManager.export_all` (`utilities.py` lines 190–209), modelled
as the list of filenames written.  A search contributes a file only when its
`results` value is truthy (neither `None` nor the empty list) and the format
is one of the three dispatched ones; `to_json` and `to_markdown` always
write, and `to_csv` writes because the guarded list is non-empty. -/
def exportAll (searches : List BSearch) (format : String) (output_dir : String) :
    List String :=
  searches.filterMap (fun s =>
    match s.results with
    | some rs =>
      if rs.isEmpty then none
      else if format == "json" || format == "csv" || format == "markdown" then
        some (output_dir ++ "/" ++ s.name ++ "." ++ format)
      else none
    | none => none)

/-! ## schemas.py models -/

/-- Embedding of `SearchStatus` from `schemas.py` lines 18–23: the four-value status
enum. -/
inductive SearchStatus where
  | pending
  | in_progress
  | completed
  | failed
deriving DecidableEq, Repr

/-- Embedding of `CriteriaResult` from `schemas.py` lines 63–68. -/
structure CriteriaResult where
  description : String
  passed : Bool
  reasoning : String
  references : List String := []
deriving DecidableEq, Repr

/-- Embedding of `VerificationResult` from `schemas.py` lines 71–74. -/
structure VerificationResult where
  passed : Bool
  criteria_results : List CriteriaResult := []
deriving DecidableEq, Repr

/-- Embedding of `EnrichmentResult` from `schemas.py` lines 77–81 (`result` has type
`Any`; primitive values cover the claims). -/
structure EnrichmentResult where
  description : String
  status : String
  result : Option Prim := none
deriving DecidableEq, Repr

/-- Embedding of `CandidateProperties` from `schemas.py` lines 84–93. -/
structure CandidateProperties where
  name : Option String := none
  current_role : Option String := none
  current_company : Option String := none
  location : Option String := none
  linkedin_url : Option String := none
  email : Option String := none
  experience_years : Option Int := none
  skills : List String := []
deriving DecidableEq, Repr

/-- Embedding of `Candidate` from `schemas.py` lines 96–106 (the wall-clock `created_at`
field is outside the embedding). -/
structure Candidate where
  id : String
  url : String
  title : String
  status : String
  verification : Option VerificationResult := none
  properties : CandidateProperties := {}
  enrichments : List EnrichmentResult := []
  score : Option ℚ := none
deriving DecidableEq, Repr

/-- Embedding of `SearchRequest` from `schemas.py` lines 27–34, after pydantic
validation. -/
structure SearchRequest where
  query : String
  count : Int := 10
  entity : EntityType := .person
  criteria : List String := []
  exclude_criteria : List String := []
  enrichments : List String := []
deriving DecidableEq, Repr

/-- The pydantic field validation of `SearchRequest.count`
(`schemas.py` line 30): `Field(10, ge=1, le=100)`. -/
def validCount (count : Int) : Bool :=
  1 ≤ count && count ≤ 100

/-- The pydantic field validation of a whole `SearchRequest`
(`schemas.py` lines 29–34): `query` has `min_length=3` and `count` is
between 1 and 100. -/
def validSearchRequest (r : SearchRequest) : Bool :=
  3 ≤ r.query.length && validCount r.count

/-- Embedding of `SearchResponse` from `schemas.py` lines 109–116 (without the wall-clock
`created_at`). -/
structure SearchResponse where
  search_id : String
  status : SearchStatus
  query : String
  count : Int
  message : String := "Search created successfully"
deriving DecidableEq, Repr

/-- Embedding of `SearchStatusResponse` from `schemas.py` lines 119–128. -/
structure SearchStatusResponse where
  search_id : String
  status : SearchStatus
  query : String
  total_requested : Int
  total_found : Int
  candidates : List Candidate := []
  progress_percent : ℚ := 0
  estimated_time_remaining : Option Int := none
deriving DecidableEq, Repr

/-- Embedding of `CandidateListResponse` from `schemas.py` lines 131–134. -/
structure CandidateListResponse where
  total : Int
  candidates : List Candidate
deriving DecidableEq, Repr

/-! ## Raw provider result items and
`SearchService._convert_results_to_candidates` -/

/-- A raw criteria-result dictionary inside a raw item's `verification`
(read by `_convert_results_to_candidates`, `search_service.py` lines
136–144).  Each `Option` field models the presence of the corresponding
dictionary key; the `.get` default is applied at the read site. -/
structure RawCriteria where
  description : Option String := none
  passed : Option Bool := none
  reasoning : Option String := none
  references : Option (List String) := none
deriving DecidableEq, Repr

/-- A raw `verification` dictionary (`search_service.py` lines 135–148). -/
structure RawVerification where
  passed : Option Bool := none
  criteria_results : Option (List RawCriteria) := none
deriving DecidableEq, Repr

/-- A raw `enrichments` entry (`search_service.py` lines 164–171). -/
structure RawEnrichment where
  description : Option String := none
  status : Option String := none
  result : Option Prim := none
deriving DecidableEq, Repr

/-- A raw `properties` dictionary (`search_service.py` lines 151–161). -/
structure RawProps where
  name : Option String := none
  current_role : Option String := none
  current_company : Option String := none
  location : Option String := none
  linkedin_url : Option String := none
  email : Option String := none
  experience_years : Option Int := none
  skills : Option (List String) := none
deriving DecidableEq, Repr

/-- One raw result item, a provider-schema dictionary as consumed by
`_convert_results_to_candidates` (`search_service.py` lines 132–192).
`verification = none` models the key being absent or its value falsy
(`None` or an empty dictionary), the two cases the guard on line 135
rejects alike. -/
structure RawItem where
  id : Option String := none
  url : Option String := none
  title : Option String := none
  status : Option String := none
  verification : Option RawVerification := none
  properties : Option RawProps := none
  enrichments : Option (List RawEnrichment) := none
deriving DecidableEq, Repr

/-- The per-item body of `_convert_results_to_candidates`
(`search_service.py` lines 132–190).  `freshId` stands for the
`str(uuid.uuid4())` default used when the item has no `id`. -/
def convertItem (freshId : String) (item : RawItem) : Candidate :=
  -- lines 134–148: extract the verification results
  let verification : Option VerificationResult :=
    match item.verification with
    | none => none
    | some rawVer =>
      let criteria_results :=
        (rawVer.criteria_results.getD []).map (fun cr =>
          { description := cr.description.getD ""
            passed := cr.passed.getD false
            reasoning := cr.reasoning.getD ""
            references := cr.references.getD [] })
      some { passed := rawVer.passed.getD false, criteria_results := criteria_results }
  -- lines 150–161: extract the properties
  let props := item.properties.getD {}
  let properties : CandidateProperties :=
    { name := props.name
      current_role := props.current_role
      current_company := props.current_company
      location := props.location
      linkedin_url := props.linkedin_url
      email := props.email
      experience_years := props.experience_years
      skills := props.skills.getD [] }
  -- lines 163–171: extract the enrichments
  let enrichments :=
    (item.enrichments.getD []).map (fun enr =>
      { description := enr.description.getD ""
        status := enr.status.getD "unknown"
        result := enr.result : EnrichmentResult })
  -- lines 173–178: score = passed fraction of the verification criteria
  let score : Option ℚ :=
    match verification with
    | some v =>
      if !v.criteria_results.isEmpty then
        let passed_count := (v.criteria_results.filter (fun cr => cr.passed)).length
        let total_count := v.criteria_results.length
        some (((passed_count : ℚ) / (total_count : ℚ)) * 100)
      else none
    | none => none
  -- lines 180–190
  { id := item.id.getD freshId
    url := item.url.getD ""
    title := item.title.getD ""
    status := item.status.getD "unknown"
    verification := verification
    properties := properties
    enrichments := enrichments
    score := score }

/-- The sort key of `search_service.py` line 195: `x.score or 0`. -/
def scoreKey (c : Candidate) : ℚ :=
  c.score.getD 0

/-- Embedding of `SearchService._convert_results_to_candidates` (`search_service.py`
lines 128–197): map each raw item to a candidate, then sort by score,
highest first (`list.sort` with `reverse=True` is a stable descending
sort).  `freshIds i` stands for the fresh uuid generated for the `i`-th
item if it lacks an `id`. -/
def convertResults (freshIds : ℕ → String) (results : List RawItem) : List Candidate :=
  let candidates := results.enum.map (fun p => convertItem (freshIds p.1) p.2)
  candidates.mergeSort (fun a b => decide (scoreKey b ≤ scoreKey a))

/-! ## search_service.py: the in-memory search map and `_run_search`

`_run_search` moves values of several different Python runtime shapes
through untyped variables, so the values flowing between
`create_candidate_search`, `wait_for_results` and
`_convert_results_to_candidates` are modelled by the dynamic sum `PyVal`
of the shapes that actually occur. -/

/-- A dynamic Python value as passed around by `_run_search`: a string (a
webset id), the info dictionary returned by `create_candidate_search`, the
webset object returned by `wait_until_idle`, or a list of raw result
items. -/
inductive PyVal where
  | str (s : String)
  | infoDict (w : WebsetInfo)
  | websetObj (w : WebsetObj)
  | itemList (items : List RawItem)
deriving DecidableEq, Repr

/-- The `exa_py` client operations used by `SearchService` (via
`finder.py`), abstracted: `websets.create` and `websets.wait_until_idle`.
The argument of `waitUntilIdle` is whatever dynamic value the caller
passes; the real client expects a webset-id string. -/
structure ExaClient where
  createWebset : SearchCriteria → List EnrichmentConfig → Except String WebsetObj
  waitUntilIdle : PyVal → Except String WebsetObj

/-- Embedding of `LinkedInCandidateFinder.create_candidate_search` (`finder.py` lines
77–172): create the webset through the client and return the info
dictionary of lines 163–168 (no `external_id` is passed by the
service). -/
def createCandidateSearch (client : ExaClient) (criteria : SearchCriteria)
    (enrichments : List EnrichmentConfig) : Except String WebsetInfo := do
  let webset ← client.createWebset criteria enrichments
  pure { id := webset.id
         status := webset.status
         external_id := none
         search_query := criteria.query }

/-- Embedding of `LinkedInCandidateFinder.wait_for_results` (`finder.py` lines 174–208):
forward the received value to `exa.websets.wait_until_idle` and return the
completed webset object. -/
def waitForResults (client : ExaClient) (webset_id : PyVal) : Except String WebsetObj :=
  client.waitUntilIdle webset_id

/-- Embedding of `_convert_results_to_candidates` applied to a dynamic value, as
`_run_search` does on line 117.  On its annotated input type (a list of raw
item dictionaries) it is `convertResults`; iterating any of the other
shapes raises: a webset object is not iterable (pydantic model), iterating
the info dictionary yields its string keys and a string item raises
`AttributeError`/`TypeError` at `item.get`/`item[...]`, and iterating a
string yields characters which raise the same way. -/
def convertResultsDyn (freshIds : ℕ → String) : PyVal → Except String (List Candidate)
  | .itemList items => .ok (convertResults freshIds items)
  | .websetObj _ => .error "TypeError: Webset object is not iterable"
  | .infoDict _ => .error "AttributeError: str object has no attribute get"
  | .str _ => .error "AttributeError: str object has no attribute get"

/-- One record of `SearchService.active_searches` (`search_service.py`
lines 69–76).  `error` is the `"error"` key, absent (`none`) until a
failure stores a message; the wall-clock `created_at` is outside the
embedding. -/
structure SRecord where
  status : SearchStatus
  query : String
  count : Int
  webset_id : Option PyVal
  candidates : List Candidate
  error : Option String := none
deriving DecidableEq, Repr

/-- The in-memory map `active_searches`, keyed by the generated search
id. -/
abbrev SMap := List (String × SRecord)

/-- Dictionary lookup on the search map. -/
def mapGet (st : SMap) (k : String) : Option SRecord :=
  (st.find? (fun p => p.1 == k)).map (·.2)

/-- Dictionary assignment `active_searches[k] = v` (overwrites an existing
binding, otherwise appends). -/
def mapSet (st : SMap) (k : String) (v : SRecord) : SMap :=
  if st.any (fun p => p.1 == k) then
    st.map (fun p => if p.1 == k then (k, v) else p)
  else
    st ++ [(k, v)]

/-- In-place update of the record bound to `k`
(`active_searches[k]["field"] = …`).  `_run_search` only runs for a key
inserted by `create_search`, so the key is always present; on an absent key
Python would raise `KeyError`, and this model leaves the map unchanged. -/
def mapUpdate (st : SMap) (k : String) (f : SRecord → SRecord) : SMap :=
  st.map (fun p => if p.1 == k then (k, f p.2) else p)

/-- Embedding of `SearchService.create_search` (`search_service.py` lines 47–87):
insert a fresh pending record and return the creation response.  `freshId`
stands for the generated `str(uuid.uuid4())`; the background task it
schedules is `runSearch` below. -/
def createSearch (st : SMap) (freshId : String) (request : SearchRequest) :
    SMap × SearchResponse :=
  (mapSet st freshId
     { status := .pending
       query := request.query
       count := request.count
       webset_id := none
       candidates := []
       error := none },
   { search_id := freshId
     status := .pending
     query := request.query
     count := request.count })

/-- The `except` handler of `_run_search` (`search_service.py` lines
123–126): mark the search failed and store the exception message under the
`error` key. -/
def failSearch (st : SMap) (search_id : String) (e : String) : SMap :=
  mapUpdate st search_id (fun r => { r with status := .failed, error := some e })

/-- Embedding of `SearchService._run_search` (`search_service.py` lines 89–126),
returning the updated map together with the sequence of writes made to the
record's `status` field.  Line 101 binds the *whole dictionary* returned by
`create_candidate_search` to `webset_id`; that dictionary is then stored in
the record and passed to `wait_for_results`, and the webset object returned
by `wait_for_results` — not an item list — is passed to
`_convert_results_to_candidates`. -/
def runSearch (client : ExaClient) (freshIds : ℕ → String) (st : SMap)
    (search_id : String) (criteria : SearchCriteria)
    (enrichments : List EnrichmentConfig) : SMap × List SearchStatus :=
  -- line 98
  let st := mapUpdate st search_id (fun r => { r with status := .in_progress })
  -- lines 100–105
  match createCandidateSearch client criteria enrichments with
  | .error e => (failSearch st search_id e, [.in_progress, .failed])
  | .ok webset_id =>
    -- line 107
    let st := mapUpdate st search_id (fun r => { r with webset_id := some (.infoDict webset_id) })
    -- lines 109–114
    match waitForResults client (.infoDict webset_id) with
    | .error e => (failSearch st search_id e, [.in_progress, .failed])
    | .ok results =>
      -- line 117
      match convertResultsDyn freshIds (.websetObj results) with
      | .error e => (failSearch st search_id e, [.in_progress, .failed])
      | .ok candidates =>
        -- lines 119–121
        (mapUpdate st search_id (fun r =>
           { r with status := .completed, candidates := candidates }),
         [.in_progress, .completed])

/-- Embedding of `SearchService.get_search_status` (`search_service.py` lines
199–219). -/
def getSearchStatus (st : SMap) (search_id : String) : Option SearchStatusResponse :=
  match mapGet st search_id with
  | none => none
  | some r =>
    let total_found : Int := r.candidates.length
    let total_requested : Int := r.count
    let progress_percent : ℚ :=
      if total_requested > 0 then (total_found : ℚ) / (total_requested : ℚ) * 100 else 0
    some { search_id := search_id
           status := r.status
           query := r.query
           total_requested := total_requested
           total_found := total_found
           candidates := r.candidates
           progress_percent := min progress_percent 100 }

/-! ## The route handlers -/

/-- The outcome of a route handler: a successful response body or an
`HTTPException` with a status code and detail message. -/
inductive HttpResult (α : Type) where
  | ok (body : α)
  | err (code : ℕ) (detail : String)
deriving DecidableEq, Repr

/-- Embedding of `POST /search` (`search.py` lines 18–44): surface an exception from
`create_search` as HTTP 500 with a message.  The argument is the outcome of
the awaited `search_service.create_search` call. -/
def createSearchRoute (res : Except String SearchResponse) : HttpResult SearchResponse :=
  match res with
  | .ok r => .ok r
  | .error e => .err 500 ("Failed to create search: " ++ e)

/-- Embedding of `GET /search/<search_id>` (`search.py` lines 47–69): 404 when the
service returns no record. -/
def getSearchStatusRoute (st : SMap) (search_id : String) :
    HttpResult SearchStatusResponse :=
  match getSearchStatus st search_id with
  | none => .err 404 ("Search with ID " ++ search_id ++ " not found")
  | some r => .ok r

/-- The `min_score` filter of `GET /candidates` (`candidates.py` line 38):
`[c for c in candidates if c.score and c.score >= min_score]`.  The
truthiness test `c.score` rejects both `None` and a score of exactly 0
before the comparison happens. -/
def minScorePred (min_score : ℚ) (c : Candidate) : Bool :=
  match c.score with
  | none => false
  | some s => s != 0 && decide (min_score ≤ s)

/-- Embedding of `GET /candidates` (`candidates.py` lines 13–55) applied to the
candidate list the service returned. -/
def getCandidatesRoute (candidates : List Candidate) (min_score : Option ℚ)
    (verified_only : Bool) : CandidateListResponse :=
  let candidates :=
    match min_score with
    | none => candidates
    | some m => candidates.filter (minScorePred m)
  let candidates :=
    if verified_only then
      candidates.filter (fun c =>
        match c.verification with
        | some v => v.passed
        | none => false)
    else candidates
  { total := candidates.length, candidates := candidates }

/-! ## Concrete fixtures used by witnesses and counterexamples -/

/-- A request as the API receives it. -/
def demoRequest : SearchRequest :=
  { query := "Senior ML Engineers", count := 5 }

/-- The criteria `create_search` builds from `demoRequest`. -/
def demoCriteria : SearchCriteria :=
  { query := "Senior ML Engineers", count := 5 }

/-- A search record as stored right after `create_search`. -/
def demoRecord : SRecord :=
  { status := .pending
    query := "Senior ML Engineers"
    count := 5
    webset_id := none
    candidates := []
    error := none }

/-- A one-entry search map. -/
def demoState : SMap := [("search-1", demoRecord)]

/-- A fully cooperative provider: webset creation succeeds and polling
reports the webset idle, whatever value it is handed. -/
def demoClient : ExaClient :=
  { createWebset := fun _ _ => .ok { id := "webset-1", status := "running" }
    waitUntilIdle := fun _ => .ok { id := "webset-1", status := "idle" } }

/-- A provider whose webset creation raises. -/
def demoFailClient : ExaClient :=
  { createWebset := fun _ _ => .error "boom"
    waitUntilIdle := fun _ => .error "boom" }

/-- A fixed uuid supply. -/
def demoFresh : ℕ → String := fun _ => "uuid-0"

/-- A candidate with no score. -/
def scorelessCandidate : Candidate :=
  { id := "c-1", url := "https://example.com/p", title := "P", status := "completed" }

/-- The transitions the claim allows between search statuses. -/
def allowedTransition : SearchStatus → SearchStatus → Prop :=
  fun a b =>
    (a = .pending ∧ b = .in_progress) ∨
    (a = .in_progress ∧ b = .completed) ∨
    ((a = .pending ∨ a = .in_progress) ∧ b = .failed)

/-- A raw criteria result marked passed. -/
def rawCrPassed : RawCriteria := { passed := some true }

/-- A raw criteria result marked not passed. -/
def rawCrFailed : RawCriteria := { passed := some false }

/-- A raw item whose verification has one passed and one failed
criterion. -/
def rawItemVerified : RawItem :=
  { verification := some { passed := some true, criteria_results := some [rawCrPassed, rawCrFailed] } }

/-- A concrete finder for the batch witness. -/
def demoFinder : FinderOps :=
  { createInfo := fun c _ ext =>
      { id := "ws-" ++ ext.getD "", status := "running", external_id := ext,
        search_query := c.query }
    waitDone := fun wid => { id := wid, status := "idle" }
    getCands := fun _ => [[("url", UVal.prim (.pstr "https://example.com/p"))]] }

/-- A concrete batch definition list for the witness. -/
def demoInputs : List (String × SearchCriteria × Option (List EnrichmentConfig)) :=
  [("engineers", demoCriteria, none)]

/-- First candidate: its `properties` dictionary has the single key
`property_x`. -/
def cexCand1 : UCand :=
  [("id", .prim (.pstr "1")), ("properties", .dict [("property_x", .pstr "a")])]

/-- Second candidate: it lacks the property `property_x` but has a property
`x`. -/
def cexCand2 : UCand :=
  [("id", .prim (.pstr "2")), ("properties", .dict [("x", .pstr "v")])]

/-- The key value `deduplicate` inspects for a candidate:
`candidate.get(key)`, with an absent key read as `None`. -/
def dedupKeyVal (c : UCand) (key : String) : UVal :=
  (pyGet c key).getD (.prim .pnone)

/-- Whether a candidate's key value Python-equals the primitive `p` (a
dict- or list-valued key value equals no primitive). -/
def keyMatches (key : String) (x : UCand) (p : Prim) : Bool :=
  match dedupKeyVal x key with
  | .prim a => pyPrimEq a p
  | _ => false

/-- Two candidates bear Python-distinct primitive key values. -/
def pyKeyNe (key : String) (x y : UCand) : Prop :=
  ∀ px py, dedupKeyVal x key = .prim px → dedupKeyVal y key = .prim py →
    pyPrimEq px py = false

/-- A candidate whose key value under `properties` is a truthy dictionary —
an unhashable probe for the `seen` set. -/
def unhashableKeyCand : UCand := [("properties", .dict [("name", .pstr "Ada")])]

/-- A candidate whose `url` is the empty string (a falsy key value). -/
def falsyUrlCand : UCand := [("url", .prim (.pstr ""))]

/-! ## Supporting lemmas about the in-memory map -/

lemma mapGet_mapUpdate_self (f : SRecord → SRecord) (k : String) :
    ∀ st : SMap, mapGet (mapUpdate st k f) k = (mapGet st k).map f := by
  intro st
  induction st with
  | nil => rfl
  | cons a t ih =>
    obtain ⟨a1, a2⟩ := a
    cases hb : (a1 == k) with
    | true =>
      simp only [mapUpdate, mapGet, List.map_cons, hb, List.find?_cons] at ih ⊢
      simp
    | false =>
      simp only [mapUpdate, mapGet, List.map_cons, hb, List.find?_cons] at ih ⊢
      simpa [hb] using ih

lemma mapGet_mapSet_self (k : String) (v : SRecord) :
    ∀ st : SMap, mapGet (mapSet st k v) k = some v := by
  intro st
  induction st with
  | nil => simp [mapGet, mapSet]
  | cons a t ih =>
    obtain ⟨a1, a2⟩ := a
    cases hb : (a1 == k) with
    | true =>
      simp only [mapSet, List.any_cons, hb, Bool.true_or, mapGet, List.map_cons,
        List.find?_cons] at ih ⊢
      simp
    | false =>
      cases ht : t.any (fun p => p.1 == k) with
      | true =>
        simp only [mapSet, List.any_cons, hb, ht, Bool.false_or, mapGet,
          List.map_cons, List.find?_cons] at ih ⊢
        simpa [hb] using ih
      | false =>
        simp only [mapSet, List.any_cons, hb, ht, Bool.false_or, mapGet,
          List.cons_append, List.find?_cons] at ih ⊢
        simpa [hb] using ih

/-! ## C3 — create then fetch; unknown ids give 404 -/

/-- C3: immediately after `create_search` returns a response carrying the
generated `search_id` with status `PENDING`, `get_search_status` on that id
returns a non-`None` response with the same id and the submitted query; for
an id absent from the map (one never returned by `create_search`),
`get_search_status` returns `None` and the `GET /search/<search_id>` route
answers HTTP 404. -/
theorem create_search_then_status_lookup
    (st : SMap) (freshId : String) (request : SearchRequest) (missingId : String)
    (hmiss : mapGet st missingId = none) :
    (createSearch st freshId request).2.search_id = freshId ∧
    (createSearch st freshId request).2.status = .pending ∧
    (createSearch st freshId request).2.query = request.query ∧
    (∃ resp, getSearchStatus (createSearch st freshId request).1 freshId = some resp ∧
       resp.search_id = freshId ∧ resp.query = request.query) ∧
    getSearchStatus st missingId = none ∧
    getSearchStatusRoute st missingId =
      .err 404 ("Search with ID " ++ missingId ++ " not found") := by
  refine ⟨rfl, rfl, rfl, ?_, ?_, ?_⟩
  · have h := mapGet_mapSet_self freshId
      { status := .pending, query := request.query, count := request.count,
        webset_id := none, candidates := [], error := none } st
    simp only [createSearch, getSearchStatus, h]
    exact ⟨_, rfl, rfl, rfl⟩
  · simp [getSearchStatus, hmiss]
  · simp [getSearchStatusRoute, getSearchStatus, hmiss]

/-- Witness for C3 at a concrete state, request and missing id. -/
theorem create_search_then_status_lookup_witness :
    mapGet ([] : SMap) "missing" = none ∧
    (∃ resp, getSearchStatus (createSearch [] "id-1" demoRequest).1 "id-1" = some resp ∧
       resp.search_id = "id-1" ∧ resp.query = demoRequest.query) := by
  refine ⟨rfl, ?_⟩
  exact (create_search_then_status_lookup [] "id-1" demoRequest "missing" rfl).2.2.2.1

/-! ## C4 — exceptions are caught at the service boundary -/

/-- C4: if any of the three provider-facing steps of `_run_search` raises
(webset creation, polling, or result conversion), the exception is caught:
the record stays in the map under its id, its status becomes `FAILED` and
the message is stored under the `error` key; an exception from
`create_search` in the `POST /search` route surfaces as HTTP 500 with a
message. -/
theorem run_search_failure_handling
    (client : ExaClient) (freshIds : ℕ → String) (st : SMap) (sid : String)
    (criteria : SearchCriteria) (enrichments : List EnrichmentConfig)
    (rec : SRecord) (hrec : mapGet st sid = some rec) :
    (∀ e, createCandidateSearch client criteria enrichments = .error e →
      mapGet (runSearch client freshIds st sid criteria enrichments).1 sid =
        some { rec with status := .failed, error := some e }) ∧
    (∀ w e, createCandidateSearch client criteria enrichments = .ok w →
      waitForResults client (.infoDict w) = .error e →
      mapGet (runSearch client freshIds st sid criteria enrichments).1 sid =
        some { rec with status := .failed, webset_id := some (.infoDict w), error := some e }) ∧
    (∀ w r e, createCandidateSearch client criteria enrichments = .ok w →
      waitForResults client (.infoDict w) = .ok r →
      convertResultsDyn freshIds (.websetObj r) = .error e →
      mapGet (runSearch client freshIds st sid criteria enrichments).1 sid =
        some { rec with status := .failed, webset_id := some (.infoDict w), error := some e }) ∧
    (∀ e, createSearchRoute (.error e) = .err 500 ("Failed to create search: " ++ e)) := by
  refine ⟨?_, ?_, ?_, fun e => rfl⟩
  · intro e he
    simp only [runSearch, he]
    simp [failSearch, mapGet_mapUpdate_self, hrec]
  · intro w e hw he
    simp only [runSearch, hw, he]
    simp [failSearch, mapGet_mapUpdate_self, hrec]
  · intro w r e hw hr he
    simp only [runSearch, hw, hr, he]
    simp [failSearch, mapGet_mapUpdate_self, hrec]

/-- Witness for C4: a provider whose webset creation raises `boom` leaves
the concrete search record failed with the message stored. -/
theorem run_search_failure_handling_witness :
    mapGet (runSearch demoFailClient demoFresh demoState "search-1" demoCriteria []).1
        "search-1" =
      some { demoRecord with status := .failed, error := some "boom" } :=
  (run_search_failure_handling demoFailClient demoFresh demoState "search-1"
    demoCriteria [] demoRecord rfl).1 "boom" rfl

/-! ## C5 — the four-value status machine -/

/-- C5: every status is one of the four enum values; a record is created
pending; the writes `_run_search` performs to a record's status, prefixed
with the `pending` it was created with, only ever step along the allowed
transitions; and no allowed transition leaves `completed` or `failed`. -/
theorem search_status_state_machine
    (client : ExaClient) (freshIds : ℕ → String) (st st' : SMap) (sid fid : String)
    (request : SearchRequest) (criteria : SearchCriteria)
    (enrichments : List EnrichmentConfig) :
    (∀ s : SearchStatus, s = .pending ∨ s = .in_progress ∨ s = .completed ∨ s = .failed) ∧
    (createSearch st fid request).2.status = .pending ∧
    (mapGet (createSearch st fid request).1 fid).map SRecord.status = some .pending ∧
    List.Chain' allowedTransition
      (.pending :: (runSearch client freshIds st' sid criteria enrichments).2) ∧
    (∀ a b, allowedTransition a b → a ≠ .completed ∧ a ≠ .failed) := by
  refine ⟨?_, rfl, ?_, ?_, ?_⟩
  · intro s; cases s <;> simp
  · have h := mapGet_mapSet_self fid
      { status := .pending, query := request.query, count := request.count,
        webset_id := none, candidates := [], error := none } st
    simp only [createSearch] at h ⊢
    simp [h]
  · cases hc : createCandidateSearch client criteria enrichments with
    | error e => simp [runSearch, hc, List.chain'_cons, allowedTransition]
    | ok w =>
      cases hw : waitForResults client (.infoDict w) with
      | error e => simp [runSearch, hc, hw, List.chain'_cons, allowedTransition]
      | ok r =>
        cases hcv : convertResultsDyn freshIds (.websetObj r) with
        | error e => simp [runSearch, hc, hw, hcv, List.chain'_cons, allowedTransition]
        | ok cands => simp [runSearch, hc, hw, hcv, List.chain'_cons, allowedTransition]
  · rintro a b (⟨rfl, rfl⟩ | ⟨rfl, rfl⟩ | ⟨rfl | rfl, rfl⟩) <;> simp

/-! ## C10 — progress_percent stays within [0, 100] -/

/-- C10: `validCount` (the pydantic `ge=1, le=100` bound on
`SearchRequest.count`) accepts exactly the integers from 1 to 100; and for a
tracked record whose requested count passed that validation, the
`progress_percent` reported by `get_search_status` is the stored-candidate
fraction of the requested count times 100, capped at 100, and lies in
`[0, 100]` (the count is positive, so the division is never by zero). -/
theorem progress_percent_bounds
    (st : SMap) (sid : String) (r : SRecord) (c : Int)
    (hr : mapGet st sid = some r) (hc : 1 ≤ r.count) :
    (validCount c = true ↔ 1 ≤ c ∧ c ≤ 100) ∧
    (∃ resp, getSearchStatus st sid = some resp ∧
      0 ≤ resp.progress_percent ∧ resp.progress_percent ≤ 100 ∧
      resp.progress_percent =
        min ((r.candidates.length : ℚ) / (r.count : ℚ) * 100) 100) := by
  constructor
  · simp [validCount]
  · have hpos : (0 : Int) < r.count := by omega
    have hq : (0 : ℚ) < (r.count : ℚ) := by exact_mod_cast hpos
    have hnn : (0 : ℚ) ≤ (r.candidates.length : ℚ) / (r.count : ℚ) * 100 := by
      apply mul_nonneg (div_nonneg (by positivity) (le_of_lt hq)) (by norm_num)
    simp only [getSearchStatus, hr, if_pos hpos]
    refine ⟨_, rfl, ?_, ?_, rfl⟩
    · exact le_min hnn (by norm_num)
    · exact min_le_right _ _

/-- Witness for C10 on the concrete pending record with count 5. -/
theorem progress_percent_bounds_witness :
    ∃ resp, getSearchStatus demoState "search-1" = some resp ∧
      0 ≤ resp.progress_percent ∧ resp.progress_percent ≤ 100 ∧
      resp.progress_percent =
        min ((demoRecord.candidates.length : ℚ) / (demoRecord.count : ℚ) * 100) 100 :=
  (progress_percent_bounds demoState "search-1" demoRecord 5 rfl (by decide)).2

/-! ## C9 — the truthiness quirk of the min_score filter -/

/-- C9: whenever `min_score` is supplied to `GET /candidates` — including
`min_score=0` — every candidate whose score is `None` or exactly 0 is
excluded, because the filter tests the truthiness of the score before
comparing; in particular `min_score=0` can return strictly fewer candidates
than supplying no `min_score` at all. -/
theorem min_score_zero_filter
    (candidates : List Candidate) (m : ℚ) (c : Candidate)
    (hscore : c.score = none ∨ c.score = some 0) :
    c ∉ (getCandidatesRoute candidates (some m) false).candidates ∧
    (getCandidatesRoute [scorelessCandidate] (some 0) false).total <
      (getCandidatesRoute [scorelessCandidate] none false).total := by
  constructor
  · intro hmem
    simp only [getCandidatesRoute, if_neg (by simp : ¬false = true)] at hmem
    have hp := (List.mem_filter.mp hmem).2
    rcases hscore with h | h <;> simp [minScorePred, h] at hp
  · simp [getCandidatesRoute, minScorePred, scorelessCandidate]

/-- Witness for C9: the scoreless candidate is dropped by `min_score=0`. -/
theorem min_score_zero_filter_witness :
    scorelessCandidate ∉
      (getCandidatesRoute [scorelessCandidate] (some 0) false).candidates :=
  (min_score_zero_filter [scorelessCandidate] 0 scorelessCandidate (Or.inl rfl)).1

/-! ## C1 — the background pipeline never delivers the provider's items -/

/-- C1 (divergence of the code from the claimed pipeline): even under a
fully cooperative provider — webset creation succeeds and polling succeeds,
whatever value it is handed — a search run by `_run_search` ends `FAILED`
with an empty candidate list, not `COMPLETED` with the provider's items
mapped into candidates.  Line 101 binds the whole info dictionary returned
by `create_candidate_search` to `webset_id` (the record's stored
`webset_id` below shows the dictionary, not an id string), and the value
handed to `_convert_results_to_candidates` is the webset object returned by
`wait_for_results`, not a list of result items (`get_candidates` is never
called), so the conversion raises and the handler marks the search
failed. -/
theorem run_search_never_completes :
    (mapGet (runSearch demoClient demoFresh demoState "search-1" demoCriteria []).1
        "search-1").map SRecord.status = some .failed ∧
    (mapGet (runSearch demoClient demoFresh demoState "search-1" demoCriteria []).1
        "search-1").map SRecord.candidates = some [] ∧
    (mapGet (runSearch demoClient demoFresh demoState "search-1" demoCriteria []).1
        "search-1").map SRecord.error =
      some (some "TypeError: Webset object is not iterable") ∧
    (mapGet (runSearch demoClient demoFresh demoState "search-1" demoCriteria []).1
        "search-1").map SRecord.webset_id =
      some (some (.infoDict { id := "webset-1", status := "running", external_id := none, search_query := "Senior ML Engineers" })) ∧
    (runSearch demoClient demoFresh demoState "search-1" demoCriteria []).2 =
      [.in_progress, .failed] := by
  decide

/-! ## C2 — scoring and sorting of converted results -/

/-- C2: `_convert_results_to_candidates` returns a permutation of the
per-item conversions, sorted so that scores are descending with a `None`
score ordered as 0; a candidate converted from an item with a (truthy)
verification whose criteria-result list is non-empty gets score
`(passed / total) * 100`, and a candidate from an item with no verification
keeps score `None`. -/
theorem convert_results_scoring_and_sorting
    (freshIds : ℕ → String) (items : List RawItem) (f : String) (item : RawItem) :
    (convertResults freshIds items).Perm
      (items.enum.map (fun p => convertItem (freshIds p.1) p.2)) ∧
    List.Pairwise (fun a b => scoreKey b ≤ scoreKey a) (convertResults freshIds items) ∧
    (item.verification = none → (convertItem f item).score = none) ∧
    (∀ v, item.verification = some v → v.criteria_results.getD [] ≠ [] →
      (convertItem f item).score =
        some ((((v.criteria_results.getD []).filter
            (fun cr => cr.passed.getD false)).length : ℚ) /
          ((v.criteria_results.getD []).length : ℚ) * 100)) := by
  refine ⟨?_, ?_, ?_, ?_⟩
  · exact List.mergeSort_perm _ _
  · have h := @List.sorted_mergeSort Candidate
      (fun a b : Candidate => decide (scoreKey b ≤ scoreKey a))
      (fun a b c hab hbc => by
        simp only [decide_eq_true_eq] at *
        exact le_trans hbc hab)
      (fun a b => by
        simp only [Bool.or_eq_true, decide_eq_true_eq]
        exact le_total (scoreKey b) (scoreKey a))
      (items.enum.map (fun p => convertItem (freshIds p.1) p.2))
    exact h.imp (fun hab => by simpa using hab)
  · intro h
    simp [convertItem, h]
  · intro v hv hne
    simp only [convertItem, hv]
    have hlen : ((v.criteria_results.getD []).map (fun cr =>
        ({ description := cr.description.getD "", passed := cr.passed.getD false,
           reasoning := cr.reasoning.getD "", references := cr.references.getD [] }
          : CriteriaResult))).isEmpty = false := by
      simpa [List.isEmpty_iff] using hne
    simp only [hlen, Bool.not_false, if_true]
    have hfil := List.filter_map
      (p := fun cr : CriteriaResult => cr.passed)
      (fun cr : RawCriteria =>
        ({ description := cr.description.getD "", passed := cr.passed.getD false,
           reasoning := cr.reasoning.getD "", references := cr.references.getD [] }
          : CriteriaResult))
      (v.criteria_results.getD [])
    simp only [hfil, List.length_map, Function.comp]
    rfl

/-- Witness for C2 on concrete items: no verification keeps score `None`,
and one passed criterion out of two scores `(1/2) * 100`. -/
theorem convert_results_scoring_and_sorting_witness :
    (convertItem "uuid-0" ({} : RawItem)).score = none ∧
    (convertItem "uuid-0" rawItemVerified).score =
      some (((([rawCrPassed, rawCrFailed].filter
            (fun cr => cr.passed.getD false)).length : ℚ) /
          (([rawCrPassed, rawCrFailed] : List RawCriteria).length : ℚ)) * 100) := by
  constructor
  · exact (convert_results_scoring_and_sorting demoFresh [] "uuid-0" {}).2.2.1 rfl
  · exact (convert_results_scoring_and_sorting demoFresh [] "uuid-0" rawItemVerified).2.2.2
      { passed := some true, criteria_results := some [rawCrPassed, rawCrFailed] }
      rfl (by decide)

/-! ## C6 — batch run and export -/

lemma exportAll_filenames (fmt dir : String)
    (hfmt : fmt = "json" ∨ fmt = "csv" ∨ fmt = "markdown") :
    ∀ searches : List BSearch,
      exportAll searches fmt dir =
        (searches.filter (fun s => !(s.results.getD []).isEmpty)).map
          (fun s => dir ++ "/" ++ s.name ++ "." ++ fmt) := by
  have hb : (fmt == "json" || fmt == "csv" || fmt == "markdown") = true := by
    rcases hfmt with h | h | h <;> simp [h]
  have hp : (fmt = "json" ∨ fmt = "csv") ∨ fmt = "markdown" := by tauto
  intro searches
  induction searches with
  | nil => rfl
  | cons a t ih =>
    cases ha : a.results with
    | none => simp [exportAll, List.filterMap_cons, List.filter_cons, ha] at ih ⊢; exact ih
    | some rs =>
      cases rs with
      | nil => simp [exportAll, List.filterMap_cons, List.filter_cons, ha] at ih ⊢; exact ih
      | cons r rt =>
        simp [exportAll, List.filterMap_cons, List.filter_cons, ha, hp] at ih ⊢
        exact ih

/-- C6: with `parallel=True`, `run_all` creates a webset for every added
search — recording its id and marking it running — before waiting on any of
them, then waits for and fetches each search's results in the order added;
with `parallel=False` it performs the full create/poll/fetch cycle per
search in order; in both modes every added search ends with status
`completed` and a non-`None` results list, and `export_all` then writes one
output file per search whose results list is truthy (non-empty). -/
theorem batch_run_all_and_export
    (f : FinderOps)
    (inputs : List (String × SearchCriteria × Option (List EnrichmentConfig)))
    (fmt dir : String) (parallel : Bool)
    (hfmt : fmt = "json" ∨ fmt = "csv" ∨ fmt = "markdown") :
    (runAll f true (addAll inputs)).2 =
      (addAll inputs).map (fun s => BEvent.created s.name)
        ++ (addAll inputs).flatMap
            (fun s => [BEvent.waited s.name, BEvent.fetched s.name]) ∧
    (∀ s ∈ startAll f (addAll inputs), s.status = "running" ∧
      s.webset_id = some (f.createInfo s.criteria s.enrichments (some s.name)).id) ∧
    (runAll f false (addAll inputs)).2 =
      (addAll inputs).flatMap
        (fun s => [BEvent.created s.name, BEvent.waited s.name, BEvent.fetched s.name]) ∧
    (∀ s ∈ (runAll f parallel (addAll inputs)).1,
       s.status = "completed" ∧ s.results ≠ none) ∧
    exportAll (runAll f parallel (addAll inputs)).1 fmt dir =
      ((runAll f parallel (addAll inputs)).1.filter
          (fun s => !(s.results.getD []).isEmpty)).map
        (fun s => dir ++ "/" ++ s.name ++ "." ++ fmt) := by
  refine ⟨rfl, ?_, rfl, ?_, exportAll_filenames fmt dir hfmt _⟩
  · intro s hs
    simp only [startAll, List.mem_map] at hs
    obtain ⟨x, _, rfl⟩ := hs
    exact ⟨rfl, rfl⟩
  · intro s hs
    cases parallel with
    | true =>
      simp [runAll, waitFetchAll, List.mem_map] at hs
      obtain ⟨x, _, rfl⟩ := hs
      exact ⟨rfl, by simp⟩
    | false =>
      simp [runAll, List.mem_map] at hs
      obtain ⟨x, _, rfl⟩ := hs
      exact ⟨rfl, by simp⟩

/-- Witness for C6 on a concrete finder, batch and format. -/
theorem batch_run_all_and_export_witness :
    (runAll demoFinder true (addAll demoInputs)).2 =
      (addAll demoInputs).map (fun s => BEvent.created s.name)
        ++ (addAll demoInputs).flatMap
            (fun s => [BEvent.waited s.name, BEvent.fetched s.name]) ∧
    exportAll (runAll demoFinder true (addAll demoInputs)).1 "json" "." =
      ((runAll demoFinder true (addAll demoInputs)).1.filter
          (fun s => !(s.results.getD []).isEmpty)).map
        (fun s => "." ++ "/" ++ s.name ++ "." ++ "json") := by
  have h := batch_run_all_and_export demoFinder demoInputs "json" "." true (Or.inl rfl)
  exact ⟨h.1, h.2.2.2.2⟩

/-! ## C7 — CSV export shape, and the property-column lookup -/

lemma exMapM_ok_of_forall {α β : Type} (g : α → Except String β) :
    ∀ l : List α, (∀ a ∈ l, ∃ b, g a = .ok b) →
      ∃ l', exMapM g l = .ok l' ∧ List.Forall₂ (fun a b => g a = .ok b) l l' := by
  intro l
  induction l with
  | nil => exact fun _ => ⟨[], rfl, List.Forall₂.nil⟩
  | cons a t ih =>
    intro h
    obtain ⟨b, hb⟩ := h a (List.mem_cons_self a t)
    obtain ⟨l', hl', hf⟩ := ih (fun x hx => h x (List.mem_cons_of_mem a hx))
    exact ⟨b :: l', by simp [exMapM, hb, hl'], List.Forall₂.cons hb hf⟩

lemma csvCell_ok (c : UCand) (field : String)
    (hc : ∀ v, pyGet c "properties" = some v → ∃ d, v = UVal.dict d) :
    ∃ cell, csvCell c field = .ok cell := by
  cases hf : strStartsWith field "property_" with
  | false => exact ⟨(pyGet c field).getD emptyCell, by simp [csvCell, hf]⟩
  | true =>
    cases hp : pyGet c "properties" with
    | none =>
      exact ⟨((pyDictGet [] (pyReplace field "property_" "")).map UVal.prim).getD emptyCell,
        by simp [csvCell, hf, hp]⟩
    | some v =>
      obtain ⟨d, rfl⟩ := hc v hp
      exact ⟨((pyDictGet d (pyReplace field "property_" "")).map UVal.prim).getD emptyCell,
        by simp [csvCell, hf, hp]⟩

lemma defaultFields_ok (c0 : UCand)
    (hc : ∀ v, pyGet c0 "properties" = some v → ∃ d, v = UVal.dict d) :
    ∃ fields, defaultFields c0 = .ok fields := by
  cases hp : pyGet c0 "properties" with
  | none => exact ⟨["id", "url", "title", "status"], by simp [defaultFields, hp]⟩
  | some v =>
    obtain ⟨d, rfl⟩ := hc v hp
    cases hd : d.isEmpty with
    | true => exact ⟨["id", "url", "title", "status"], by simp [defaultFields, hp, hd]⟩
    | false =>
      exact ⟨["id", "url", "title", "status"] ++ d.map (fun p => "property_" ++ p.1),
        by simp [defaultFields, hp, hd]⟩

/-- C7 (amended): for a non-empty candidate list whose `properties` values,
when present, are dictionaries, `to_csv` with no field list produces a
header row followed by exactly one row per input candidate, in input order;
the columns are `id, url, title, status` plus `property_<key>` for each key
of the first candidate's (truthy) `properties` dictionary; a non-property
field a candidate lacks is written as the empty string; a property column's
cell is looked up under the column name with every occurrence of
`property_` removed (which equals `<key>` whenever the key does not itself
contain `property_`), defaulting to the empty string; and for an empty
candidate list no file is written. -/
theorem to_csv_default_structure
    (c0 : UCand) (rest : List UCand)
    (hwf : ∀ c ∈ c0 :: rest, ∀ v, pyGet c "properties" = some v → ∃ d, v = UVal.dict d) :
    ∃ fields rows,
      defaultFields c0 = .ok fields ∧
      to_csv (c0 :: rest) none =
        .ok (some ((fields.map (fun f => UVal.prim (.pstr f))) :: rows)) ∧
      List.Forall₂ (fun c row => csvRow c fields = .ok row) (c0 :: rest) rows ∧
      (pyGet c0 "properties" = none → fields = ["id", "url", "title", "status"]) ∧
      (∀ d, pyGet c0 "properties" = some (.dict d) →
        fields = if d.isEmpty then ["id", "url", "title", "status"]
          else ["id", "url", "title", "status"] ++ d.map (fun p => "property_" ++ p.1)) ∧
      (∀ c ∈ c0 :: rest, ∀ f, strStartsWith f "property_" = false →
        pyGet c f = none → csvCell c f = .ok emptyCell) ∧
      (∀ c ∈ c0 :: rest, ∀ f, strStartsWith f "property_" = true →
        (pyGet c "properties" = none → csvCell c f = .ok emptyCell) ∧
        (∀ d, pyGet c "properties" = some (.dict d) →
          csvCell c f =
            .ok (((pyDictGet d (pyReplace f "property_" "")).map UVal.prim).getD
              emptyCell))) ∧
      (∀ fieldsArg, to_csv [] fieldsArg = .ok none) := by
  obtain ⟨fields, hfields⟩ := defaultFields_ok c0 (hwf c0 (List.mem_cons_self c0 rest))
  obtain ⟨rows, hrows, hforall⟩ :=
    exMapM_ok_of_forall (fun c => csvRow c fields) (c0 :: rest) (fun c hc => by
      obtain ⟨row, hrow, _⟩ :=
        exMapM_ok_of_forall (csvCell c) fields (fun field _ => csvCell_ok c field (hwf c hc))
      exact ⟨row, hrow⟩)
  refine ⟨fields, rows, hfields, ?_, hforall, ?_, ?_, ?_, ?_, fun _ => rfl⟩
  · simp only [to_csv, hfields, hrows]
  · intro hp
    simp [defaultFields, hp] at hfields
    exact hfields.symm
  · intro d hp
    cases hd : d.isEmpty with
    | true =>
      simp [defaultFields, hp, hd] at hfields
      simp [hd, hfields]
    | false =>
      simp [defaultFields, hp, hd] at hfields
      simp [hd, hfields]
  · intro c _ f hf hmiss
    simp [csvCell, hf, hmiss]
  · intro c _ f hf
    constructor
    · intro hp
      simp [csvCell, hf, hp, pyDictGet]
    · intro d hp
      simp [csvCell, hf, hp]

/-- Counterexample to C7 as stated: the default columns include
`property_property_x` (from the first candidate's key `property_x`); the
second candidate *lacks* that property, yet its cell in that column is
written as `"v"`, not the empty string, because
`field.replace('property_', '')` strips every occurrence of `property_`
and the cell is looked up under the key `x`. -/
theorem to_csv_lacking_property_not_empty :
    pyDictGet [("x", Prim.pstr "v")] "property_x" = none ∧
    to_csv [cexCand1, cexCand2] none =
      .ok (some
        [[UVal.prim (.pstr "id"), UVal.prim (.pstr "url"), UVal.prim (.pstr "title"),
          UVal.prim (.pstr "status"), UVal.prim (.pstr "property_property_x")],
         [UVal.prim (.pstr "1"), emptyCell, emptyCell, emptyCell, emptyCell],
         [UVal.prim (.pstr "2"), emptyCell, emptyCell, emptyCell,
          UVal.prim (.pstr "v")]]) ∧
    UVal.prim (.pstr "v") ≠ emptyCell := by
  refine ⟨rfl, by rfl, by decide⟩

/-- Witness for the amended C7 on the same concrete candidates. -/
theorem to_csv_default_structure_witness :
    ∃ fields rows,
      defaultFields cexCand1 = .ok fields ∧
      to_csv [cexCand1, cexCand2] none =
        .ok (some ((fields.map (fun f => UVal.prim (.pstr f))) :: rows)) ∧
      List.Forall₂ (fun c row => csvRow c fields = .ok row) [cexCand1, cexCand2] rows := by
  obtain ⟨fields, rows, h1, h2, h3, _⟩ :=
    to_csv_default_structure cexCand1 [cexCand2] (by
      intro c hc v hv
      fin_cases hc <;> simp [cexCand1, cexCand2, pyGet] at hv <;>
        exact ⟨_, hv.symm⟩)
  exact ⟨fields, rows, h1, h2, h3⟩

/-! ## C8 — deduplication keeps the first candidate per truthy key value -/

lemma pyPrimEq_iff (a b : Prim) :
    pyPrimEq a b = true ↔
      (∃ x, primAsNum a = some x ∧ primAsNum b = some x) ∨
      (primAsNum a = none ∧ primAsNum b = none ∧ a = b) := by
  cases a <;> cases b <;> simp [pyPrimEq, primAsNum] <;> tauto

lemma pyPrimEq_refl (p : Prim) : pyPrimEq p p = true := by
  rw [pyPrimEq_iff]
  cases h : primAsNum p with
  | none => exact Or.inr ⟨rfl, rfl, rfl⟩
  | some x => exact Or.inl ⟨x, rfl, rfl⟩

lemma pyPrimEq_trans {a b c : Prim} (hab : pyPrimEq a b = true)
    (hbc : pyPrimEq b c = true) : pyPrimEq a c = true := by
  rw [pyPrimEq_iff] at hab hbc ⊢
  rcases hab with ⟨x, hax, hbx⟩ | ⟨hna, hnb, rfl⟩
  · rcases hbc with ⟨y, hby, hcy⟩ | ⟨hnb', _, rfl⟩
    · rw [hbx] at hby
      exact Or.inl ⟨x, hax, (Option.some.injEq _ _).mp hby ▸ hcy⟩
    · rw [hbx] at hnb'
      exact Option.noConfusion hnb'
  · exact hbc

lemma truthyPrim_iff_of_primAsNum {a : Prim} {x : ℚ} (h : primAsNum a = some x) :
    truthyPrim a = true ↔ x ≠ 0 := by
  cases a with
  | pbool b =>
    cases b <;> simp [primAsNum] at h <;> simp [truthyPrim, ← h]
  | pint n =>
    simp [primAsNum] at h
    simp [truthyPrim, ← h]
  | pnum q =>
    simp [primAsNum] at h
    simp [truthyPrim, ← h]
  | pnone => simp [primAsNum] at h
  | pstr s => simp [primAsNum] at h

lemma pyPrimEq_truthy {a b : Prim} (h : pyPrimEq a b = true) :
    truthyPrim a = truthyPrim b := by
  rw [pyPrimEq_iff] at h
  rcases h with ⟨x, hax, hbx⟩ | ⟨_, _, rfl⟩
  · have ha := truthyPrim_iff_of_primAsNum hax
    have hb := truthyPrim_iff_of_primAsNum hbx
    cases hta : truthyPrim a with
    | true => exact (hb.mpr (ha.mp hta)).symm
    | false =>
      cases htb : truthyPrim b with
      | true => exact absurd (ha.mpr (hb.mp htb)) (by simp [hta])
      | false => rfl
  · rfl

lemma dedupGo_cons (key : String) (seen : List Prim) (c : UCand) (cs : List UCand) :
    dedupGo key seen (c :: cs) =
      if truthyU (dedupKeyVal c key) then
        match dedupKeyVal c key with
        | .prim p =>
          if seen.any (fun q => pyPrimEq q p) then
            dedupGo key seen cs
          else
            match dedupGo key (p :: seen) cs with
            | .error e => .error e
            | .ok rest => .ok (c :: rest)
        | _ => .error "TypeError: unhashable type"
      else dedupGo key seen cs := rfl

lemma dedupGo_sublist (key : String) :
    ∀ (l : List UCand) (seen : List Prim) (out : List UCand),
      dedupGo key seen l = .ok out → out.Sublist l := by
  intro l
  induction l with
  | nil =>
    intro seen out h
    simp only [dedupGo] at h
    cases h
    simp
  | cons c t ih =>
    intro seen out h
    rw [dedupGo_cons] at h
    cases ht : truthyU (dedupKeyVal c key) with
    | false =>
      rw [ht, if_neg (by simp)] at h
      exact (ih _ _ h).cons c
    | true =>
      rw [ht, if_pos rfl] at h
      cases hv : dedupKeyVal c key with
      | prim p =>
        rw [hv] at h
        dsimp only at h
        cases hseen : seen.any (fun q => pyPrimEq q p) with
        | true =>
          rw [hseen, if_pos rfl] at h
          exact (ih _ _ h).cons c
        | false =>
          rw [hseen, if_neg (by simp)] at h
          cases hrec : dedupGo key (p :: seen) t with
          | error e => rw [hrec] at h; exact Except.noConfusion h
          | ok rest =>
            rw [hrec] at h
            dsimp only at h
            cases h
            exact (ih _ _ hrec).cons₂ c
      | dict d => rw [hv] at h; exact Except.noConfusion h
      | list l' => rw [hv] at h; exact Except.noConfusion h

lemma dedupGo_mem (key : String) :
    ∀ (l : List UCand) (seen : List Prim) (out : List UCand) (c' : UCand),
      dedupGo key seen l = .ok out → c' ∈ out →
      ∃ p, dedupKeyVal c' key = .prim p ∧ truthyPrim p = true ∧
        seen.any (fun q => pyPrimEq q p) = false ∧
        l.find? (fun x => keyMatches key x p) = some c' := by
  intro l
  induction l with
  | nil =>
    intro seen out c' h hmem
    simp only [dedupGo] at h
    cases h
    simp at hmem
  | cons c t ih =>
    intro seen out c' h hmem
    rw [dedupGo_cons] at h
    cases ht : truthyU (dedupKeyVal c key) with
    | false =>
      rw [ht, if_neg (by simp)] at h
      obtain ⟨p, hkey, htp, hseen, hfind⟩ := ih _ _ _ h hmem
      refine ⟨p, hkey, htp, hseen, ?_⟩
      rw [List.find?_cons_of_neg, hfind]
      intro hkm
      simp only [keyMatches] at hkm
      rcases hvm : dedupKeyVal c key with a | d | l' <;> rw [hvm] at hkm <;>
        dsimp only at hkm
      · rw [hvm] at ht
        simp only [truthyU] at ht
        rw [pyPrimEq_truthy hkm, htp] at ht
        exact Bool.noConfusion ht
      · exact Bool.noConfusion hkm
      · exact Bool.noConfusion hkm
    | true =>
      rw [ht, if_pos rfl] at h
      cases hv : dedupKeyVal c key with
      | prim p0 =>
        rw [hv] at h
        dsimp only at h
        cases hseen0 : seen.any (fun q => pyPrimEq q p0) with
        | true =>
          rw [hseen0, if_pos rfl] at h
          obtain ⟨p, hkey, htp, hseen, hfind⟩ := ih _ _ _ h hmem
          refine ⟨p, hkey, htp, hseen, ?_⟩
          rw [List.find?_cons_of_neg, hfind]
          intro hkm
          simp only [keyMatches] at hkm
          rw [hv] at hkm
          dsimp only at hkm
          obtain ⟨q, hq, hqe⟩ := List.any_eq_true.mp hseen0
          have hqp : pyPrimEq q p = true := pyPrimEq_trans hqe hkm
          have : seen.any (fun r => pyPrimEq r p) = true :=
            List.any_eq_true.mpr ⟨q, hq, hqp⟩
          rw [this] at hseen
          exact Bool.noConfusion hseen
        | false =>
          rw [hseen0, if_neg (by simp)] at h
          cases hrec : dedupGo key (p0 :: seen) t with
          | error e => rw [hrec] at h; exact Except.noConfusion h
          | ok rest =>
            rw [hrec] at h
            dsimp only at h
            cases h
            rcases List.mem_cons.mp hmem with rfl | hmem'
            · refine ⟨p0, hv, ?_, hseen0, ?_⟩
              · rw [hv] at ht
                simpa [truthyU] using ht
              · rw [List.find?_cons_of_pos]
                simp only [keyMatches]
                rw [hv]
                dsimp only
                exact pyPrimEq_refl p0
            · obtain ⟨p, hkey, htp, hseen', hfind⟩ := ih _ _ _ hrec hmem'
              rw [List.any_cons, Bool.or_eq_false_iff] at hseen'
              refine ⟨p, hkey, htp, hseen'.2, ?_⟩
              rw [List.find?_cons_of_neg, hfind]
              intro hkm
              simp only [keyMatches] at hkm
              rw [hv] at hkm
              dsimp only at hkm
              rw [hkm] at hseen'
              exact Bool.noConfusion hseen'.1
      | dict d => rw [hv] at h; exact Except.noConfusion h
      | list l' => rw [hv] at h; exact Except.noConfusion h

lemma dedupGo_pairwise (key : String) :
    ∀ (l : List UCand) (seen : List Prim) (out : List UCand),
      dedupGo key seen l = .ok out → List.Pairwise (pyKeyNe key) out := by
  intro l
  induction l with
  | nil =>
    intro seen out h
    simp only [dedupGo] at h
    cases h
    exact List.Pairwise.nil
  | cons c t ih =>
    intro seen out h
    rw [dedupGo_cons] at h
    cases ht : truthyU (dedupKeyVal c key) with
    | false =>
      rw [ht, if_neg (by simp)] at h
      exact ih _ _ h
    | true =>
      rw [ht, if_pos rfl] at h
      cases hv : dedupKeyVal c key with
      | prim p0 =>
        rw [hv] at h
        dsimp only at h
        cases hseen0 : seen.any (fun q => pyPrimEq q p0) with
        | true =>
          rw [hseen0, if_pos rfl] at h
          exact ih _ _ h
        | false =>
          rw [hseen0, if_neg (by simp)] at h
          cases hrec : dedupGo key (p0 :: seen) t with
          | error e => rw [hrec] at h; exact Except.noConfusion h
          | ok rest =>
            rw [hrec] at h
            dsimp only at h
            cases h
            rw [List.pairwise_cons]
            refine ⟨?_, ih _ _ hrec⟩
            intro y hy px py hpx hpy
            rw [hv] at hpx
            obtain ⟨p, hkeyy, _, hseen', _⟩ := dedupGo_mem key t _ _ y hrec hy
            rw [hkeyy] at hpy
            rw [List.any_cons, Bool.or_eq_false_iff] at hseen'
            have e1 : px = p0 := (UVal.prim.injEq _ _).mp hpx.symm
            have e2 : py = p := (UVal.prim.injEq _ _).mp hpy.symm
            rw [e1, e2]
            exact hseen'.1
      | dict d => rw [hv] at h; exact Except.noConfusion h
      | list l' => rw [hv] at h; exact Except.noConfusion h

lemma dedupGo_represents (key : String) :
    ∀ (l : List UCand) (seen : List Prim) (out : List UCand) (c : UCand) (p : Prim),
      dedupGo key seen l = .ok out → c ∈ l →
      dedupKeyVal c key = .prim p → truthyPrim p = true →
      seen.any (fun q => pyPrimEq q p) = false →
      ∃ c' ∈ out, ∃ p', dedupKeyVal c' key = .prim p' ∧ pyPrimEq p' p = true := by
  intro l
  induction l with
  | nil =>
    intro seen out c p _ hmem
    simp at hmem
  | cons c0 t ih =>
    intro seen out c p h hmem hkey htp hseen
    rw [dedupGo_cons] at h
    rcases List.mem_cons.mp hmem with rfl | hmem'
    · have ht : truthyU (dedupKeyVal c key) = true := by
        rw [hkey]
        simpa [truthyU] using htp
      rw [ht, if_pos rfl, hkey] at h
      dsimp only at h
      rw [hseen, if_neg (by simp)] at h
      cases hrec : dedupGo key (p :: seen) t with
      | error e => rw [hrec] at h; exact Except.noConfusion h
      | ok rest =>
        rw [hrec] at h
        dsimp only at h
        cases h
        exact ⟨c, List.mem_cons_self _ _, p, hkey, pyPrimEq_refl p⟩
    · cases ht0 : truthyU (dedupKeyVal c0 key) with
      | false =>
        rw [ht0, if_neg (by simp)] at h
        exact ih _ _ _ _ h hmem' hkey htp hseen
      | true =>
        rw [ht0, if_pos rfl] at h
        cases hv0 : dedupKeyVal c0 key with
        | prim p0 =>
          rw [hv0] at h
          dsimp only at h
          cases hseen0 : seen.any (fun q => pyPrimEq q p0) with
          | true =>
            rw [hseen0, if_pos rfl] at h
            exact ih _ _ _ _ h hmem' hkey htp hseen
          | false =>
            rw [hseen0, if_neg (by simp)] at h
            cases hrec : dedupGo key (p0 :: seen) t with
            | error e => rw [hrec] at h; exact Except.noConfusion h
            | ok rest =>
              rw [hrec] at h
              dsimp only at h
              cases h
              cases hpe : pyPrimEq p0 p with
              | true => exact ⟨c0, List.mem_cons_self _ _, p0, hv0, hpe⟩
              | false =>
                have hseen2 : (p0 :: seen).any (fun q => pyPrimEq q p) = false := by
                  rw [List.any_cons, Bool.or_eq_false_iff]
                  exact ⟨hpe, hseen⟩
                obtain ⟨c', hc', hp'⟩ := ih _ _ _ _ hrec hmem' hkey htp hseen2
                exact ⟨c', List.mem_cons_of_mem _ hc', hp'⟩
        | dict d => rw [hv0] at h; exact Except.noConfusion h
        | list l2 => rw [hv0] at h; exact Except.noConfusion h

lemma dedupGo_fixpoint (key : String) :
    ∀ (l : List UCand) (seen : List Prim),
      (∀ c ∈ l, ∃ p, dedupKeyVal c key = .prim p ∧ truthyPrim p = true ∧
        seen.any (fun q => pyPrimEq q p) = false) →
      List.Pairwise (pyKeyNe key) l →
      dedupGo key seen l = .ok l := by
  intro l
  induction l with
  | nil => intro seen _ _; rfl
  | cons c t ih =>
    intro seen h hpw
    obtain ⟨p, hkey, htp, hseen⟩ := h c (List.mem_cons_self _ _)
    rw [List.pairwise_cons] at hpw
    have ht : truthyU (dedupKeyVal c key) = true := by
      rw [hkey]
      simpa [truthyU] using htp
    rw [dedupGo_cons, ht, if_pos rfl, hkey]
    dsimp only
    rw [hseen, if_neg (by simp)]
    have hrec : dedupGo key (p :: seen) t = .ok t := by
      apply ih
      · intro x hx
        obtain ⟨px, hkx, htx, hsx⟩ := h x (List.mem_cons_of_mem _ hx)
        refine ⟨px, hkx, htx, ?_⟩
        rw [List.any_cons, Bool.or_eq_false_iff]
        exact ⟨hpw.1 x hx p px hkey hkx, hsx⟩
      · exact hpw.2
    rw [hrec]

lemma dedupGo_total (key : String) :
    ∀ (l : List UCand) (seen : List Prim),
      (∀ c ∈ l, truthyU (dedupKeyVal c key) = true →
        ∃ p, dedupKeyVal c key = .prim p) →
      ∃ out, dedupGo key seen l = .ok out := by
  intro l
  induction l with
  | nil => exact fun seen _ => ⟨[], rfl⟩
  | cons c t ih =>
    intro seen h
    have htail : ∀ x ∈ t, truthyU (dedupKeyVal x key) = true →
        ∃ p, dedupKeyVal x key = .prim p :=
      fun x hx => h x (List.mem_cons_of_mem _ hx)
    cases ht : truthyU (dedupKeyVal c key) with
    | false =>
      obtain ⟨out, hout⟩ := ih seen htail
      refine ⟨out, ?_⟩
      rw [dedupGo_cons, ht, if_neg (by simp)]
      exact hout
    | true =>
      obtain ⟨p, hp⟩ := h c (List.mem_cons_self _ _) ht
      cases hseen : seen.any (fun q => pyPrimEq q p) with
      | true =>
        obtain ⟨out, hout⟩ := ih seen htail
        refine ⟨out, ?_⟩
        rw [dedupGo_cons, ht, if_pos rfl, hp]
        dsimp only
        rw [hseen, if_pos rfl]
        exact hout
      | false =>
        obtain ⟨out, hout⟩ := ih (p :: seen) htail
        refine ⟨c :: out, ?_⟩
        rw [dedupGo_cons, ht, if_pos rfl, hp]
        dsimp only
        rw [hseen, if_neg (by simp), hout]

/-- C8 (amended): when every truthy key value in the list is a hashable
primitive (a truthy dict- or list-valued key makes the function raise
`TypeError` instead), `deduplicate` returns a subsequence of its input in
which every kept candidate has a truthy primitive key value and is the
*first* input candidate whose key value Python-equals it; kept key values
are pairwise Python-distinct, every truthy input key value stays
represented up to Python equality, every candidate whose key value is
absent or falsy is dropped, and the operation is idempotent. -/
theorem deduplicate_first_per_key
    (candidates : List UCand) (key : String) (c : UCand)
    (hkeys : ∀ x ∈ candidates, truthyU (dedupKeyVal x key) = true →
      ∃ p, dedupKeyVal x key = .prim p) :
    ∃ out, deduplicate candidates key = .ok out ∧
      out.Sublist candidates ∧
      (∀ c' ∈ out, ∃ p, dedupKeyVal c' key = .prim p ∧ truthyPrim p = true ∧
        candidates.find? (fun x => keyMatches key x p) = some c') ∧
      (truthyU (dedupKeyVal c key) = false → c ∉ out) ∧
      (∀ c' ∈ candidates, ∀ p, dedupKeyVal c' key = .prim p → truthyPrim p = true →
        ∃ c'' ∈ out, ∃ p', dedupKeyVal c'' key = .prim p' ∧ pyPrimEq p' p = true) ∧
      List.Pairwise (pyKeyNe key) out ∧
      deduplicate out key = .ok out := by
  obtain ⟨out, hout⟩ := dedupGo_total key candidates [] hkeys
  refine ⟨out, hout, dedupGo_sublist key candidates [] out hout, ?_, ?_, ?_,
    dedupGo_pairwise key candidates [] out hout, ?_⟩
  · intro c' hc'
    obtain ⟨p, hkey, htp, _, hfind⟩ := dedupGo_mem key candidates [] out c' hout hc'
    exact ⟨p, hkey, htp, hfind⟩
  · intro hfalsy hmem
    obtain ⟨p, hkey, htp, _, _⟩ := dedupGo_mem key candidates [] out c hout hmem
    rw [hkey] at hfalsy
    simp only [truthyU] at hfalsy
    rw [htp] at hfalsy
    exact Bool.noConfusion hfalsy
  · intro c' hc' p hp htp
    exact dedupGo_represents key candidates [] out c' p hout hc' hp htp rfl
  · apply dedupGo_fixpoint
    · intro x hx
      obtain ⟨p, hkey, htp, _, _⟩ := dedupGo_mem key candidates [] out x hout hx
      exact ⟨p, hkey, htp, rfl⟩
    · exact dedupGo_pairwise key candidates [] out hout

/-- Counterexample to C8 as stated: for a candidate whose key value is a
truthy dictionary, `deduplicate` does not return the claimed deduplicated
subsequence at all — hashing the unhashable value while probing the `seen`
set raises `TypeError` — so the claim, quantified over every candidate list
and key, fails at this input. -/
theorem deduplicate_unhashable_raises :
    deduplicate [unhashableKeyCand] "properties" =
      .error "TypeError: unhashable type" ∧
    deduplicate [unhashableKeyCand] "properties" ≠ .ok [unhashableKeyCand] := by
  have h1 : deduplicate [unhashableKeyCand] "properties" =
      .error "TypeError: unhashable type" := rfl
  refine ⟨h1, ?_⟩
  rw [h1]
  intro h
  exact Except.noConfusion h

/-- Witness for the amended C8 on concrete lists: re-deduplicating the
computed output returns it unchanged, and a candidate with a falsy
(empty-string) key value is dropped. -/
theorem deduplicate_first_per_key_witness :
    (∃ out, deduplicate [cexCand1, cexCand2, cexCand1] "id" = .ok out ∧
       deduplicate out "id" = .ok out) ∧
    (∃ out, deduplicate [falsyUrlCand] "url" = .ok out ∧ falsyUrlCand ∉ out) := by
  constructor
  · obtain ⟨out, h1, _, _, _, _, _, h7⟩ :=
      deduplicate_first_per_key [cexCand1, cexCand2, cexCand1] "id" cexCand1 (by
        intro x hx ht
        fin_cases hx <;> exact ⟨_, rfl⟩)
    exact ⟨out, h1, h7⟩
  · obtain ⟨out, h1, _, _, h4, _, _, _⟩ :=
      deduplicate_first_per_key [falsyUrlCand] "url" falsyUrlCand (by
        intro x hx ht
        fin_cases hx
        exact absurd ht (by decide))
    exact ⟨out, h1, h4 (by decide)⟩
